import Mathlib

/-!
Verification of the analytic halo-profile model of this repository
(`dawn/halo_profile.py`, class `HaloProfile`, and the older variant
`magneticum/analytic_profile.py`, class `Profile`).

Embedding conventions:
* All astropy unit bookkeeping is erased.  Every quantity is a real number
  expressed in the fixed unit system the source works in (Msun/h for masses,
  Mpc/h for radii, K for temperatures); `.to(...)` conversions that are
  identities in that system are dropped.
* Physical constants from `astropy.constants` become positive real literals;
  only their positivity matters for the claims below.
* numpy arrays of radii become Lean lists; `scipy.integrate.simpson` on the
  uniform 2000-point grid of `get_norm` becomes the uniform-spacing
  composite Simpson rule with scipy's last-interval (Cartwright) correction
  for an even number of samples.
* Python attribute dictionaries become a structure; `update_param`'s
  string-keyed `setattr` becomes a match on the attribute name.  Attributes
  whose values are not real scalars (unit objects, selectors, flags, the
  redshift tuple) are present in the attribute-name universe but are not
  updatable in the embedding; no claim updates them.
* A `raise` becomes `Except.error`; a jitted function that falls off the end
  of its body (the commented-out `irho = 2` branch of `_get_rho_bnd`)
  becomes `Option.none`.
-/

noncomputable section

open Classical

/-- `astropy.constants.G` (positivity is all that is used). -/
def const_G : ℝ := 6.6743e-11

/-- `astropy.constants.m_p` (positivity is all that is used). -/
def const_m_p : ℝ := 1.67262192e-27

/-- `astropy.constants.k_B` (positivity is all that is used). -/
def const_k_B : ℝ := 1.380649e-23

/-- State of `dawn/halo_profile.py`'s `HaloProfile` class: the scalar
attributes set in `__init__` together with the derived attributes
(`mu_e`, `mu_p`, `H0`) created by `_update_derived_param`, and a flag
`interp_built` recording whether `_init_prof_interpolator` has run
(i.e. whether the `_Pe_prof_interpolator` / `_rho_dm_prof_interpolator`
keys exist in `__dict__`). -/
structure HaloProfile where
  omega_m : ℝ
  omega_b : ℝ
  h : ℝ
  H0 : ℝ
  f_H : ℝ
  alpha : ℝ
  M0 : ℝ
  beta : ℝ
  eps1_0 : ℝ
  eps1_1 : ℝ
  eps2_0 : ℝ
  eps2_1 : ℝ
  HMcode_rescale_A : ℝ
  alpha_nt : ℝ
  n_nt : ℝ
  gamma : ℝ
  gamma_T : ℝ
  a : ℝ
  irho : ℕ
  imass_conc : ℕ
  conc_param : ℝ
  rs : ℝ
  lognorm_rho : ℝ
  use_interp : Bool
  mmin : ℝ
  mmax : ℝ
  verbose : Bool
  interp_error_tol : ℝ
  mu_e : ℝ
  mu_p : ℝ
  interp_built : Bool

/-- The `HaloProfile` produced by `HaloProfile()` with no keyword arguments:
the `__init__` literals, with the derived attributes as `_update_derived_param`
computes them (the constructor ends by calling `update_param([], [])`). -/
def HaloProfile.default : HaloProfile where
  omega_m := 0.272
  omega_b := 0.0456
  h := 0.704
  H0 := 0.704 * 100
  f_H := 0.76
  alpha := 0.8471
  M0 := (10 : ℝ) ^ (13.5937 : ℝ)
  beta := 0.6
  eps1_0 := -0.1065
  eps1_1 := -0.1073
  eps2_0 := 0
  eps2_1 := 0
  HMcode_rescale_A := 1
  alpha_nt := 0
  n_nt := 0
  gamma := 1.177
  gamma_T := 2
  a := 0
  irho := 0
  imass_conc := 0
  conc_param := 8
  rs := 0.5
  lognorm_rho := -2
  use_interp := false
  mmin := 1e13
  mmax := 1e16
  verbose := false
  interp_error_tol := 0.001
  mu_e := 2 / (1 + 0.76)
  mu_p := 4 / (3 + 5 * 0.76)
  interp_built := false

/-- Eq. 25: `self.omega_b/self.omega_m * (M/self.M0)**self.beta/(1 + (M/self.M0)**self.beta)`. -/
def HaloProfile.get_f_bnd (s : HaloProfile) (M : ℝ) : ℝ :=
  s.omega_b / s.omega_m * (M / s.M0) ^ s.beta / (1 + (M / s.M0) ^ s.beta)

/-- Eq. 22: virial density contrast from `Omega_m(z)`. -/
def HaloProfile.get_delta_v (s : HaloProfile) (z : ℝ) : ℝ :=
  let omega_at_z := s.omega_m * (1 + z) ^ 3 /
    (s.omega_m * (1 + z) ^ 3 + (1 - s.omega_m))
  1 / omega_at_z * (18 * Real.pi ^ 2 - 82 * (1 - omega_at_z) - 39 * (1 - omega_at_z) ^ 2)

/-- Virial radius `(M / (4/3 π Δ_v ρ_m))^(1/3)` with
`ρ_crit = 2.7554e11 Msun h²/Mpc³` and `ρ_m = Ω_m ρ_crit`. -/
def HaloProfile.get_rvirial (s : HaloProfile) (M z : ℝ) : ℝ :=
  let delta_v := s.get_delta_v z
  let rho_m := s.omega_m * 2.7554e11
  (M / (4 / 3 * Real.pi * delta_v * rho_m)) ^ ((1 : ℝ) / 3)

/-- Eq. 33, `get_concentration`.  The `imass_conc = 2` case returns the fixed
`conc_param` before the `eps1`/`eps2` domain checks; modes 0 and 1 compute
their concentration-mass relation, pass the domain checks, and apply the
`f_bnd`-based modification and the global rescale factor.  A selector other
than 0, 1, 2 leaves `c_M` unbound in the source (an `UnboundLocalError`),
embedded as an error. -/
def HaloProfile.get_concentration (s : HaloProfile) (M z : ℝ) : Except String ℝ :=
  if s.imass_conc = 2 then Except.ok s.conc_param
  else
    let eps1 := s.eps1_0 + s.eps1_1 * z
    let eps2 := s.eps2_0 + s.eps2_1 * z
    if eps1 ≤ -1 then Except.error ("eps1<-1 concentration for low mass halos is negative!")
    else if eps2 ≤ -1 then Except.error ("eps2<-1 concentration for high mass halos is negative!")
    else if s.imass_conc = 0 then
      let c_M := 7.85 * (M / 2e12) ^ (-0.081 : ℝ) * (1 + z) ^ (-0.71 : ℝ)
      Except.ok (c_M * (1 + eps1 + (eps2 - eps1) * s.get_f_bnd M / (s.omega_b / s.omega_m))
        * s.HMcode_rescale_A)
    else if s.imass_conc = 1 then
      let c_M := Real.exp 1.5 * (M / (19.9e13 * 0.704)) ^ (-0.04 : ℝ)
        * ((1 / (1 + z)) / 0.877) ^ (-0.52 : ℝ)
      Except.ok (c_M * (1 + eps1 + (eps2 - eps1) * s.get_f_bnd M / (s.omega_b / s.omega_m))
        * s.HMcode_rescale_A)
    else Except.error ("UnboundLocalError: c_M referenced before assignment")

/-- The attribute names present in a `HaloProfile`'s `__dict__` after
construction (the `__init__` assignments plus the derived attributes). -/
def HaloProfile.attrs : List String :=
  ["omega_m", "omega_b", "h", "H0", "units_rho", "units_Pe", "units_Temp",
   "f_H", "alpha", "M0", "beta", "eps1_0", "eps1_1", "eps2_0", "eps2_1",
   "HMcode_rescale_A", "alpha_nt", "n_nt", "gamma", "gamma_T", "a",
   "irho", "imass_conc", "conc_param", "rs", "lognorm_rho",
   "use_interp", "zs", "mmin", "mmax", "verbose", "interp_error_tol",
   "mu_e", "mu_p"]

/-- `self.__setattr__(name, value)` for the real-scalar attributes.
Attributes that are not real scalars (unit objects, the selectors, flags,
the redshift tuple) are left unchanged; no claim updates them. -/
def HaloProfile.setAttr (s : HaloProfile) (n : String) (v : ℝ) : HaloProfile :=
  match n with
  | "omega_m" => { s with omega_m := v }
  | "omega_b" => { s with omega_b := v }
  | "h" => { s with h := v }
  | "H0" => { s with H0 := v }
  | "f_H" => { s with f_H := v }
  | "alpha" => { s with alpha := v }
  | "M0" => { s with M0 := v }
  | "beta" => { s with beta := v }
  | "eps1_0" => { s with eps1_0 := v }
  | "eps1_1" => { s with eps1_1 := v }
  | "eps2_0" => { s with eps2_0 := v }
  | "eps2_1" => { s with eps2_1 := v }
  | "HMcode_rescale_A" => { s with HMcode_rescale_A := v }
  | "alpha_nt" => { s with alpha_nt := v }
  | "n_nt" => { s with n_nt := v }
  | "gamma" => { s with gamma := v }
  | "gamma_T" => { s with gamma_T := v }
  | "a" => { s with a := v }
  | "conc_param" => { s with conc_param := v }
  | "rs" => { s with rs := v }
  | "lognorm_rho" => { s with lognorm_rho := v }
  | "mmin" => { s with mmin := v }
  | "mmax" => { s with mmax := v }
  | "interp_error_tol" => { s with interp_error_tol := v }
  | "mu_e" => { s with mu_e := v }
  | "mu_p" => { s with mu_p := v }
  | _ => s

/-- The diagnostic `update_param` prints for an unknown attribute name. -/
def HaloProfile.unknown_msg (n : String) : String :=
  "Unkown attribute `" ++ n ++ "`! Ignoring.."

/-- `_update_derived_param`: recompute `H0`, `mu_e`, `mu_p` from the current
attributes and, when `use_interp` is set, (re)build the profile
interpolators (recorded here by `interp_built`). -/
def HaloProfile.update_derived_param (s : HaloProfile) : HaloProfile :=
  { s with
    H0 := s.h * 100
    mu_e := 2 / (1 + s.f_H)
    mu_p := 4 / (3 + 5 * s.f_H)
    interp_built := if s.use_interp then true else s.interp_built }

/-- The `for` loop of `HaloProfile.update_param`: `M0` gets its value with
units attached; a name missing from `__dict__` is either the `log10_M0`
shorthand (setting `M0 = 10**value`) or is reported and skipped; any other
name is assigned directly.  Returns the updated state and the printed
diagnostics. -/
def HaloProfile.updateLoop (s : HaloProfile) :
    List (String × ℝ) → HaloProfile × List String
  | [] => (s, [])
  | (n, v) :: rest =>
    if n = "M0" then HaloProfile.updateLoop { s with M0 := v } rest
    else if n ∉ HaloProfile.attrs then
      if n = "log10_M0" then HaloProfile.updateLoop { s with M0 := (10 : ℝ) ^ v } rest
      else
        let res := HaloProfile.updateLoop s rest
        (res.1, HaloProfile.unknown_msg n :: res.2)
    else HaloProfile.updateLoop (s.setAttr n v) rest

/-- `HaloProfile.update_param(names, values)` (names and values zipped):
run the assignment loop, then always recompute the derived parameters. -/
def HaloProfile.update_param (s : HaloProfile) (l : List (String × ℝ)) :
    HaloProfile × List String :=
  ((s.updateLoop l).1.update_derived_param, (s.updateLoop l).2)

/-- `get_Pe_profile_interpolated`: raises before doing anything if
`_Pe_prof_interpolator` is not in `__dict__`.  The successful path queries
the `ProfileInterpolator` (whose source is not under `src/`) and is not
modeled; no claim depends on it. -/
def HaloProfile.get_Pe_profile_interpolated (s : HaloProfile)
    (M z : ℝ) (r_bins : Option (List ℝ)) : Except String Unit :=
  if ¬ s.interp_built then
    Except.error ("Attempting to use interpolator without initiliazing! \n Please set `use_interp` to True")
  else Except.ok ()

/-- `get_rho_dm_profile_interpolated`: same not-initialized guard as
`get_Pe_profile_interpolated`. -/
def HaloProfile.get_rho_dm_profile_interpolated (s : HaloProfile)
    (M z : ℝ) (r_bins : Option (List ℝ)) : Except String Unit :=
  if ¬ s.interp_built then
    Except.error ("Attempting to use interpolator without initiliazing! \n Please set `use_interp` to True")
  else Except.ok ()

/-- The per-field statistic of `_test_prof_interpolator`:
`np.sum(np.abs(interp/true - 1))/n*100` over the concatenated profile
values of the whole validation sample. -/
def HaloProfile.meanDiff (interp tru : List ℝ) (n : ℕ) : ℝ :=
  (List.zipWith (fun a b => |a / b - 1|) interp tru).sum / n * 100

/-- `_test_prof_interpolator` at one redshift.  The random mass sample and
the model/interpolator evaluations are supplied as the true/interpolated
value lists (concatenated over the sample, as in the source); the deviation
statistics and the check sequence are transcribed.  The dark-matter
statistic is computed by the source but never checked; `Pe`, `rho` and
`Temp` are checked in that order against `interp_error_tol` and the first
violation raises. -/
def HaloProfile.test_prof_interpolator (s : HaloProfile) (n : ℕ)
    (rho_dm_tru rho_dm_interp Pe_tru Pe_interp rho_tru rho_interp
      Temp_tru Temp_interp : List ℝ) : Except String Unit :=
  if HaloProfile.meanDiff Pe_interp Pe_tru n > s.interp_error_tol then
    Except.error ("Interpolation test failed for Pe profile :(")
  else if HaloProfile.meanDiff rho_interp rho_tru n > s.interp_error_tol then
    Except.error ("Interpolation test failed for rho profile :(")
  else if HaloProfile.meanDiff Temp_interp Temp_tru n > s.interp_error_tol then
    Except.error ("Interpolation test failed for Temperature profile :(")
  else Except.ok ()

/-- `np.linspace a b n`: `n` evenly spaced samples from `a` to `b`. -/
def linspace (a b : ℝ) (n : ℕ) : List ℝ :=
  (List.range n).map (fun i : ℕ => a + (i : ℝ) * ((b - a) / ((n : ℝ) - 1)))

/-- The weight (per spacing `h`) that `scipy.integrate.simpson` puts on the
`i`-th of `n` uniformly spaced samples when `n` is even: the basic composite
Simpson rule over the first `n - 1` samples plus the Cartwright correction
for the final interval (coefficients `-1/12, 2/3, 5/12` on the last three
samples). -/
def simpW (n i : ℕ) : ℝ :=
  (if i = 0 then 1 / 3
   else if i = n - 2 then 1 / 3
   else if i < n - 1 then (if i % 2 = 1 then 4 / 3 else 2 / 3)
   else 0)
  +
  (if i = n - 3 then -(1 / 12)
   else if i = n - 2 then 2 / 3
   else if i = n - 1 then 5 / 12
   else 0)

/-- `scipy.integrate.simpson(ys, xs)` for uniformly spaced samples with
spacing `h` and an even sample count (the case used by `get_norm`, whose
grid has 2000 points). -/
def simpson (h : ℝ) (ys : List ℝ) : ℝ :=
  ∑ i ∈ Finset.range ys.length, h * simpW ys.length i * ys.getD i 0

/-- Evaluate an `Option`-valued integrand over a grid, propagating failure
(a `None` from the jitted shape function poisons the whole numpy
computation). -/
def seqOption (f : ℝ → Option ℝ) : List ℝ → Option (List ℝ)
  | [] => some []
  | r :: l =>
    match f r with
    | none => none
    | some y =>
      match seqOption f l with
      | none => none
      | some ys => some (y :: ys)

/-- The jitted static method `HaloProfile._get_rho_bnd(x, m, params, irho)`.
For `irho = 0` the shape is `(ln(1+x)/x)^(1/(γ-1))`; for `irho = 1` the
exponent's `γ` is replaced by `γ·m^a`.  The `irho = 2` body is commented out
in the source, so the jitted function falls off the end and produces no
value. -/
def HaloProfile.rho_bnd_shape (x m gamma a : ℝ) (irho : ℕ) : Option ℝ :=
  match irho with
  | 0 => some ((Real.log (1 + x) / x) ^ (1 / (gamma - 1)))
  | 1 => some ((Real.log (1 + x) / x) ^ (1 / (gamma * m ^ a - 1)))
  | _ => none

/-- `_get_rho_bnd_wrapper` (Eq. 35): dispatch on `irho`, building the
parameter dictionary and scaling the radius by `r_s = r_virial/c_M`.
For `irho = 2` the mass is rescaled by `M0 = 1e13 Msun/h` and the
(commented-out) e-GNFW shape is invoked; for a selector outside
`{0, 1, 2}` the Python wrapper falls through all branches and returns
`None`. -/
def HaloProfile.rho_bnd_wrapper (s : HaloProfile) (M r r_virial c_M : ℝ) : Option ℝ :=
  let r_s := r_virial / c_M
  if s.irho = 0 then HaloProfile.rho_bnd_shape (r / r_s) M s.gamma 0 0
  else if s.irho = 1 then HaloProfile.rho_bnd_shape (r / r_s) M s.gamma s.a 1
  else if s.irho = 2 then HaloProfile.rho_bnd_shape (r / r_s) (M / 1e13) s.gamma 0 2
  else none

/-- `get_norm(profile, M, r_virial, c_M)`: composite-Simpson integral of
`4πr²·profile(M, r, r_virial, c_M)` over `np.linspace(1e-6, r_virial, 2000)`. -/
def HaloProfile.get_norm (profile : ℝ → ℝ → ℝ → ℝ → Option ℝ)
    (M r_virial c_M : ℝ) : Option ℝ :=
  (seqOption (fun r => (profile M r r_virial c_M).map (fun ρ => 4 * Real.pi * r ^ 2 * ρ))
      (linspace 1e-6 r_virial 2000)).map
    (simpson ((r_virial - 1e-6) / 1999))

/-- `get_rho_bnd`: un-normalized shape times `f_bnd(M)·M / norm`, with the
normalization integral computed by `get_norm` over the same shape. -/
def HaloProfile.get_rho_bnd (s : HaloProfile) (M r r_virial c_M z : ℝ) : Option ℝ :=
  match s.rho_bnd_wrapper M r r_virial c_M with
  | none => none
  | some rho_bnd =>
    match HaloProfile.get_norm s.rho_bnd_wrapper M r_virial c_M with
    | none => none
    | some norm => some (rho_bnd * s.get_f_bnd M * M / norm)

/-- Eq. 39, `_get_Temp_virial`: `α·(G·m_p·μ_p·(1+z)/r_virial/(3/2·k_B)·M)`
(the `.to(u.K)` conversion is the identity in the embedding's unit system). -/
def HaloProfile.get_Temp_virial (s : HaloProfile) (M r_virial z : ℝ) : ℝ :=
  s.alpha * (const_G * const_m_p * s.mu_p * (1 + z) / r_virial / (3 / 2 * const_k_B) * M)

/-- Eq. 38, `dawn`'s `get_Temp_g`: `T_v · (ln(1+x)/x)^(1/(γ_T-1))` with
`x = r/(r_virial/c_M)` — the same shape for every `irho` (this class has no
isothermal branch). -/
def HaloProfile.get_Temp_g (s : HaloProfile) (M r r_virial c_M z : ℝ) : ℝ :=
  let T_v := s.get_Temp_virial M r_virial z
  let x := r / (r_virial / c_M)
  T_v * (Real.log (1 + x) / x) ^ (1 / (s.gamma_T - 1))

/-- State of `magneticum/analytic_profile.py`'s `Profile` class: the scalar
attributes of its `__init__` plus the derived `H0`, `mu_e`, `mu_p`. -/
structure Profile where
  f_H : ℝ
  gamma : ℝ
  alpha : ℝ
  M0 : ℝ
  beta : ℝ
  HMCode_rescale_A : ℝ
  a : ℝ
  gamma_0 : ℝ
  gamma_1 : ℝ
  gamma_2 : ℝ
  beta_0 : ℝ
  beta_1 : ℝ
  beta_2 : ℝ
  eta : ℝ
  eps1_0 : ℝ
  eps1_1 : ℝ
  eps2_0 : ℝ
  eps2_1 : ℝ
  omega_m : ℝ
  omega_b : ℝ
  h : ℝ
  irho : ℕ
  ifit : Bool
  H0 : ℝ
  mu_e : ℝ
  mu_p : ℝ

/-- The `Profile` produced by `Profile()` with no keyword arguments. -/
def Profile.default : Profile where
  f_H := 0.76
  gamma := 1.177
  alpha := 0.8471
  M0 := (10 : ℝ) ^ (13.5937 : ℝ)
  beta := 0.6
  HMCode_rescale_A := 1.2989607249999999
  a := 0
  gamma_0 := 0.5
  gamma_1 := -0.05
  gamma_2 := 0
  beta_0 := 4.7
  beta_1 := 0.05
  beta_2 := 0
  eta := 1.3
  eps1_0 := -0.1065
  eps1_1 := -0.1073
  eps2_0 := 0
  eps2_1 := 0
  omega_m := 0.272
  omega_b := 0.0456
  h := 0.704
  irho := 0
  ifit := false
  H0 := 0.704 * 100
  mu_e := 2 / (1 + 0.76)
  mu_p := 4 / (3 + 5 * 0.76)

/-- The attribute names in a constructed `Profile`'s `__dict__`. -/
def Profile.attrs : List String :=
  ["f_H", "gamma", "alpha", "M0", "beta", "HMCode_rescale_A", "a",
   "gamma_0", "gamma_1", "gamma_2", "beta_0", "beta_1", "beta_2", "eta",
   "eps1_0", "eps1_1", "eps2_0", "eps2_1", "omega_m", "omega_b", "h",
   "irho", "ifit", "zs", "H0", "mu_e", "mu_p"]

/-- `Profile.__setattr__` for the real-scalar attributes (non-scalar
attributes are left unchanged; no claim updates them). -/
def Profile.setAttr (p : Profile) (n : String) (v : ℝ) : Profile :=
  match n with
  | "f_H" => { p with f_H := v }
  | "gamma" => { p with gamma := v }
  | "alpha" => { p with alpha := v }
  | "M0" => { p with M0 := v }
  | "beta" => { p with beta := v }
  | "HMCode_rescale_A" => { p with HMCode_rescale_A := v }
  | "a" => { p with a := v }
  | "gamma_0" => { p with gamma_0 := v }
  | "gamma_1" => { p with gamma_1 := v }
  | "gamma_2" => { p with gamma_2 := v }
  | "beta_0" => { p with beta_0 := v }
  | "beta_1" => { p with beta_1 := v }
  | "beta_2" => { p with beta_2 := v }
  | "eta" => { p with eta := v }
  | "eps1_0" => { p with eps1_0 := v }
  | "eps1_1" => { p with eps1_1 := v }
  | "eps2_0" => { p with eps2_0 := v }
  | "eps2_1" => { p with eps2_1 := v }
  | "omega_m" => { p with omega_m := v }
  | "omega_b" => { p with omega_b := v }
  | "h" => { p with h := v }
  | "H0" => { p with H0 := v }
  | "mu_e" => { p with mu_e := v }
  | "mu_p" => { p with mu_p := v }
  | _ => p

/-- The diagnostic `Profile.update_param` prints for an unknown name. -/
def Profile.unknown_msg (n : String) : String :=
  "Unkown Attribute " ++ n ++ " !"

/-- `Profile._update_derived_param` (the `ifit` norm-interpolator build is
outside the claims and not modeled). -/
def Profile.update_derived_param (p : Profile) : Profile :=
  { p with
    H0 := p.h * 100
    mu_e := 2 / (1 + p.f_H)
    mu_p := 4 / (3 + 5 * p.f_H) }

/-- `Profile.update_param`: on the first name missing from `__dict__` the
method prints a diagnostic and `return`s — aborting the whole call, so the
remaining assignments and the final `_update_derived_param` are skipped.
(The `log10_M0` branch is unreachable: that name is never in `__dict__`, so
the membership check has already returned; it is transcribed as a no-op on
the modeled fields.) -/
def Profile.update_param (p : Profile) :
    List (String × ℝ) → Profile × List String
  | [] => (p.update_derived_param, [])
  | (n, v) :: rest =>
    if n ∉ Profile.attrs then (p, [Profile.unknown_msg n])
    else if n = "log10_M0" then Profile.update_param p rest
    else if n = "M0" then Profile.update_param { p with M0 := v } rest
    else Profile.update_param (p.setAttr n v) rest

/-- Eq. 39 for the `Profile` class (same formula as the `HaloProfile` one). -/
def Profile.get_Temp_virial (p : Profile) (M r_virial z : ℝ) : ℝ :=
  p.alpha * (const_G * const_m_p * p.mu_p * (1 + z) / r_virial / (3 / 2 * const_k_B) * M)

/-- `magneticum`'s `Profile.get_Temp_g`: `T_v · f_r` with
`f_r = ln(1+x)/x` for `irho ∈ {0, 1}` and `f_r = 1` for `irho = 2` —
note: no `1/(γ_T-1)` exponent (the class has no `gamma_T` attribute).
For any other selector `f_r` is unbound (`UnboundLocalError`). -/
def Profile.get_Temp_g (p : Profile) (M r r_virial c_M z : ℝ) : Option ℝ :=
  let T_v := p.get_Temp_virial M r_virial z
  let x := r / (r_virial / c_M)
  if p.irho = 0 ∨ p.irho = 1 then some (T_v * (Real.log (1 + x) / x))
  else if p.irho = 2 then some (T_v * 1)
  else none

/-- The temperature formula exactly as the specification states it
(second definition for the refinement comparison of C5, written from the
spec's words, not from the source): gas temperature is
`T_virial · shape(x)^(1/(γ_T-1))` where `shape(x) = ln(1+x)/x` for
`irho ∈ {0,1}` and `shape(x) = 1` (isothermal) for `irho = 2`. -/
def specTempShape (irho : ℕ) (x : ℝ) : ℝ :=
  if irho = 2 then 1 else Real.log (1 + x) / x

/-- Spec-side temperature (see `specTempShape`). -/
def specTempG (T_virial x gamma_T : ℝ) (irho : ℕ) : ℝ :=
  T_virial * specTempShape irho x ^ (1 / (gamma_T - 1))

/-! ## Helper lemmas -/

/-- For `M, M0, Ω_b, Ω_m > 0` the baryon fraction is strictly between `0`
and `Ω_b/Ω_m`. -/
lemma f_bnd_bounds (s : HaloProfile) (M : ℝ) (hM : 0 < M) (hM0 : 0 < s.M0)
    (hb : 0 < s.omega_b) (hm : 0 < s.omega_m) :
    0 < s.get_f_bnd M ∧ s.get_f_bnd M < s.omega_b / s.omega_m := by
  unfold HaloProfile.get_f_bnd
  have ht : 0 < M / s.M0 := div_pos hM hM0
  have hu : 0 < (M / s.M0) ^ s.beta := Real.rpow_pos_of_pos ht _
  have hd : 0 < 1 + (M / s.M0) ^ s.beta := by linarith
  have hbm : 0 < s.omega_b / s.omega_m := div_pos hb hm
  constructor
  · exact div_pos (mul_pos hbm hu) hd
  · rw [mul_div_assoc]
    have hq : (M / s.M0) ^ s.beta / (1 + (M / s.M0) ^ s.beta) < 1 := by
      rw [div_lt_one hd]; linarith
    nlinarith [mul_lt_mul_of_pos_left hq hbm]

/-! ## C10 -/

/-- C10: with `imass_conc = 2`, `get_concentration` returns exactly the fixed
`conc_param` for every mass and redshift, never raising the `eps1`/`eps2`
domain errors and applying neither the `f_bnd`-based correction nor the
global rescale factor. -/
theorem conc_fixed_mode_returns_param (s : HaloProfile) (M z : ℝ)
    (h2 : s.imass_conc = 2) :
    s.get_concentration M z = Except.ok s.conc_param := by
  unfold HaloProfile.get_concentration
  simp [h2]

/-- Witness for C10: a concrete instance with `imass_conc = 2`. -/
theorem conc_fixed_mode_returns_param_w :
    ({ HaloProfile.default with imass_conc := 2 } : HaloProfile).get_concentration 5 1
      = Except.ok ({ HaloProfile.default with imass_conc := 2 } : HaloProfile).conc_param :=
  conc_fixed_mode_returns_param { HaloProfile.default with imass_conc := 2 } 5 1 rfl

/-! ## C2 -/

/-- C2 (amended): if `eps1_0 = -1` and `eps1_1 ≤ 0`, then for modes
`imass_conc ∈ {0, 1}` `get_concentration` raises the `eps1` domain error
for every mass and every redshift `z ≥ 0` (mode 2 instead returns the fixed
`conc_param` before the check, see the counterexample). -/
theorem conc_eps1_boundary_raises (s : HaloProfile) (M z : ℝ)
    (h0 : s.eps1_0 = -1) (h1 : s.eps1_1 ≤ 0) (hz : 0 ≤ z)
    (hmc : s.imass_conc = 0 ∨ s.imass_conc = 1) :
    s.get_concentration M z
      = Except.error ("eps1<-1 concentration for low mass halos is negative!") := by
  have hne : s.imass_conc ≠ 2 := by rcases hmc with h | h <;> simp [h]
  have heps : s.eps1_0 + s.eps1_1 * z ≤ -1 := by
    have : s.eps1_1 * z ≤ 0 := mul_nonpos_of_nonpos_of_nonneg h1 hz
    rw [h0]; linarith
  unfold HaloProfile.get_concentration
  simp [hne, heps]

/-- Counterexample for C2 as stated: a model with `eps1_0 = -1` (and the
default `eps1_1 = -0.1073 ≤ 0`) but `imass_conc = 2` does not raise — it
returns the fixed concentration `8`. -/
theorem conc_eps1_boundary_cex :
    ({ HaloProfile.default with eps1_0 := -1, imass_conc := 2 } : HaloProfile).get_concentration 1 0
      = Except.ok 8 := rfl

/-- Witness for C2 (amended) at the default mode-0 model with `eps1_0 = -1`. -/
theorem conc_eps1_boundary_raises_w :
    ({ HaloProfile.default with eps1_0 := -1 } : HaloProfile).get_concentration 1 0
      = Except.error ("eps1<-1 concentration for low mass halos is negative!") :=
  conc_eps1_boundary_raises { HaloProfile.default with eps1_0 := -1 } 1 0 rfl
    (by norm_num [HaloProfile.default]) le_rfl (Or.inl rfl)

/-! ## C9 -/

/-- C9: on a model whose interpolation cache was never built, both
interpolated-evaluation operations fail with the not-initialized error, for
all arguments, before computing anything. -/
theorem interp_requires_init (s : HaloProfile) (M z : ℝ) (r_bins : Option (List ℝ))
    (h : s.interp_built = false) :
    s.get_Pe_profile_interpolated M z r_bins
        = Except.error ("Attempting to use interpolator without initiliazing! \n Please set `use_interp` to True")
      ∧ s.get_rho_dm_profile_interpolated M z r_bins
        = Except.error ("Attempting to use interpolator without initiliazing! \n Please set `use_interp` to True") := by
  unfold HaloProfile.get_Pe_profile_interpolated HaloProfile.get_rho_dm_profile_interpolated
  simp [h]

/-- Witness for C9: the default model (interpolation never enabled). -/
theorem interp_requires_init_w :
    HaloProfile.default.get_Pe_profile_interpolated 1 0 none
        = Except.error ("Attempting to use interpolator without initiliazing! \n Please set `use_interp` to True")
      ∧ HaloProfile.default.get_rho_dm_profile_interpolated 1 0 none
        = Except.error ("Attempting to use interpolator without initiliazing! \n Please set `use_interp` to True") :=
  interp_requires_init HaloProfile.default 1 0 none rfl

/-! ## C8 -/

/-- C8: `_test_prof_interpolator` raises exactly when one of the pressure,
density or temperature deviation statistics exceeds `interp_error_tol`
(the dark-matter statistic is computed but never checked); a violation is
always propagated as an error, never suppressed. -/
theorem test_interpolator_raises_iff (s : HaloProfile) (n : ℕ)
    (rho_dm_tru rho_dm_interp Pe_tru Pe_interp rho_tru rho_interp
      Temp_tru Temp_interp : List ℝ) :
    (∃ e, s.test_prof_interpolator n rho_dm_tru rho_dm_interp Pe_tru Pe_interp
        rho_tru rho_interp Temp_tru Temp_interp = Except.error e)
      ↔ (HaloProfile.meanDiff Pe_interp Pe_tru n > s.interp_error_tol
        ∨ HaloProfile.meanDiff rho_interp rho_tru n > s.interp_error_tol
        ∨ HaloProfile.meanDiff Temp_interp Temp_tru n > s.interp_error_tol) := by
  unfold HaloProfile.test_prof_interpolator
  split_ifs with h1 h2 h3 <;> simp [*]

/-! ## C6 -/

/-- C6 (amended): after every `HaloProfile.update_param` call — for any name
list, including lists containing unrecognized names — the derived parameters
satisfy `mu_e = 2/(1 + f_H)` and `mu_p = 4/(3 + 5·f_H)` for the current
`f_H`.  (The magneticum `Profile.update_param` violates this: it aborts on
the first unknown name without recomputing, see the counterexample.) -/
theorem update_param_recomputes_derived (s : HaloProfile) (l : List (String × ℝ)) :
    ((s.update_param l).1).mu_e = 2 / (1 + ((s.update_param l).1).f_H)
      ∧ ((s.update_param l).1).mu_p = 4 / (3 + 5 * ((s.update_param l).1).f_H) :=
  ⟨rfl, rfl⟩

/-- Counterexample for C6 as stated: for the magneticum `Profile`, the call
`update_param(['f_H', 'bogus'], [0.5, 0])` assigns `f_H` and then aborts at
the unknown name, leaving `mu_e` stale (still computed from the old
`f_H = 0.76`). -/
theorem update_param_stale_derived_mag :
    ((Profile.update_param Profile.default [(("f_H"), 0.5), (("bogus"), 0)]).1).mu_e
      ≠ 2 / (1 + ((Profile.update_param Profile.default [(("f_H"), 0.5), (("bogus"), 0)]).1).f_H) := by
  have h1 : ((Profile.update_param Profile.default [(("f_H"), 0.5), (("bogus"), 0)]).1).mu_e
      = 2 / (1 + 0.76) := rfl
  have h2 : ((Profile.update_param Profile.default [(("f_H"), 0.5), (("bogus"), 0)]).1).f_H
      = 0.5 := rfl
  rw [h1, h2]; norm_num

/-! ## C7 -/

/-- C7 (amended): in `HaloProfile.update_param` an unrecognized name (other
than the accepted `log10_M0` shorthand) is reported with a diagnostic and
skipped — the resulting state is exactly the state obtained from the rest of
the list, so every recognized name is still assigned and the call never
fails; and `log10_M0` sets `M0 = 10^value`.  (The magneticum
`Profile.update_param` instead aborts on the first unknown name, see the
counterexample.) -/
theorem update_param_skips_unknown (s : HaloProfile) :
    (∀ n v l, n ∉ HaloProfile.attrs → n ≠ "log10_M0" →
        s.update_param ((n, v) :: l)
          = ((s.update_param l).1, HaloProfile.unknown_msg n :: (s.update_param l).2))
      ∧ ∀ v : ℝ, ((s.update_param [(("log10_M0"), v)]).1).M0 = (10 : ℝ) ^ v := by
  constructor
  · intro n v l hn hlog
    have hM0 : n ≠ "M0" := by
      intro h
      exact hn (h ▸ (by simp [HaloProfile.attrs]))
    have hstep : s.updateLoop ((n, v) :: l)
        = ((s.updateLoop l).1, HaloProfile.unknown_msg n :: (s.updateLoop l).2) := by
      rw [HaloProfile.updateLoop]
      simp [hM0, hn, hlog]
    unfold HaloProfile.update_param
    rw [hstep]
  · intro v
    rfl

/-- Witness for C7 at concrete inputs: the unknown name `bogus` is reported
and skipped, and `log10_M0` sets `M0 = 10^3`. -/
theorem update_param_skips_unknown_w :
    HaloProfile.default.update_param [(("bogus"), 0)]
        = ((HaloProfile.default.update_param []).1,
            HaloProfile.unknown_msg ("bogus") :: (HaloProfile.default.update_param []).2)
      ∧ ((HaloProfile.default.update_param [(("log10_M0"), 3)]).1).M0 = (10 : ℝ) ^ (3 : ℝ) :=
  ⟨(update_param_skips_unknown HaloProfile.default).1 ("bogus") 0 [] (by decide) (by decide),
   (update_param_skips_unknown HaloProfile.default).2 3⟩

/-- Counterexample for C7 as stated: for the magneticum `Profile`, the call
`update_param(['bogus', 'f_H'], [0, 0.5])` aborts at the unknown first name,
so the recognized name `f_H` is never assigned its value `0.5`. -/
theorem update_param_abort_mag :
    ((Profile.update_param Profile.default [(("bogus"), 0), (("f_H"), 0.5)]).1).f_H ≠ 0.5 := by
  have h : ((Profile.update_param Profile.default [(("bogus"), 0), (("f_H"), 0.5)]).1).f_H
      = 0.76 := rfl
  rw [h]; norm_num

/-! ## C4 -/

/-- C4: for a model with positive `M0`, `β`, `Ω_b`, `Ω_m` (as in the
defaults), `get_f_bnd` is strictly increasing in `M`, and for every `M > 0`
it lies in `[0, Ω_b/Ω_m)`. -/
theorem f_bnd_monotone_bounded (s : HaloProfile)
    (hM0 : 0 < s.M0) (hβ : 0 < s.beta) (hb : 0 < s.omega_b) (hm : 0 < s.omega_m) :
    (∀ M1 M2, 0 < M1 → M1 < M2 → s.get_f_bnd M1 < s.get_f_bnd M2)
      ∧ ∀ M, 0 < M → 0 ≤ s.get_f_bnd M ∧ s.get_f_bnd M < s.omega_b / s.omega_m := by
  constructor
  · intro M1 M2 h1 h12
    have ht1 : 0 < M1 / s.M0 := div_pos h1 hM0
    have ht12 : M1 / s.M0 < M2 / s.M0 := by gcongr
    have hu12 : (M1 / s.M0) ^ s.beta < (M2 / s.M0) ^ s.beta :=
      Real.rpow_lt_rpow (le_of_lt ht1) ht12 hβ
    have hu1 : 0 < (M1 / s.M0) ^ s.beta := Real.rpow_pos_of_pos ht1 _
    have hu2 : 0 < (M2 / s.M0) ^ s.beta :=
      Real.rpow_pos_of_pos (div_pos (lt_trans h1 h12) hM0) _
    have hbm : 0 < s.omega_b / s.omega_m := div_pos hb hm
    unfold HaloProfile.get_f_bnd
    rw [mul_div_assoc, mul_div_assoc]
    refine mul_lt_mul_of_pos_left ?_ hbm
    rw [div_lt_div_iff₀ (by linarith) (by linarith)]
    nlinarith
  · intro M hM
    have h := f_bnd_bounds s M hM hM0 hb hm
    exact ⟨le_of_lt h.1, h.2⟩

/-- Witness for C4 at the default model with `M1 = 1 < M2 = 2`. -/
theorem f_bnd_monotone_bounded_w :
    HaloProfile.default.get_f_bnd 1 < HaloProfile.default.get_f_bnd 2
      ∧ 0 ≤ HaloProfile.default.get_f_bnd 1
      ∧ HaloProfile.default.get_f_bnd 1
          < HaloProfile.default.omega_b / HaloProfile.default.omega_m := by
  have hM0 : 0 < HaloProfile.default.M0 := by
    show (0 : ℝ) < (10 : ℝ) ^ (13.5937 : ℝ)
    exact Real.rpow_pos_of_pos (by norm_num) _
  have h := f_bnd_monotone_bounded HaloProfile.default hM0
    (by norm_num [HaloProfile.default]) (by norm_num [HaloProfile.default])
    (by norm_num [HaloProfile.default])
  exact ⟨h.1 1 2 one_pos one_lt_two, (h.2 1 one_pos).1, (h.2 1 one_pos).2⟩

/-! ## C3 -/

/-- The virial density contrast is positive for `0 < Ω_m < 1` and `z ≥ 0`. -/
lemma get_delta_v_pos (s : HaloProfile) (z : ℝ) (hm : 0 < s.omega_m)
    (hm1 : s.omega_m < 1) (hz : 0 ≤ z) : 0 < s.get_delta_v z := by
  unfold HaloProfile.get_delta_v
  have hz1 : (0 : ℝ) < 1 + z := by linarith
  have hApos : 0 < s.omega_m * (1 + z) ^ 3 := mul_pos hm (pow_pos hz1 3)
  have hden : 0 < s.omega_m * (1 + z) ^ 3 + (1 - s.omega_m) := by linarith
  set ω := s.omega_m * (1 + z) ^ 3 / (s.omega_m * (1 + z) ^ 3 + (1 - s.omega_m)) with hω
  have hω0 : 0 < ω := div_pos hApos hden
  have hω1 : ω ≤ 1 := by
    rw [hω, div_le_one hden]; linarith
  have hπ : (3 : ℝ) < Real.pi := Real.pi_gt_three
  have h9 : (9 : ℝ) < Real.pi ^ 2 := by nlinarith
  have hu0 : 0 ≤ 1 - ω := by linarith
  have hu1 : 1 - ω < 1 := by linarith
  have hu2 : (1 - ω) ^ 2 ≤ 1 := by nlinarith
  have hcore : 0 < 18 * Real.pi ^ 2 - 82 * (1 - ω) - 39 * (1 - ω) ^ 2 := by nlinarith
  exact mul_pos (by positivity) hcore

/-- The virial radius is positive for `M > 0`, `0 < Ω_m < 1`, `z ≥ 0`. -/
lemma get_rvirial_pos (s : HaloProfile) (M z : ℝ) (hM : 0 < M)
    (hm : 0 < s.omega_m) (hm1 : s.omega_m < 1) (hz : 0 ≤ z) :
    0 < s.get_rvirial M z := by
  unfold HaloProfile.get_rvirial
  have hδ := get_delta_v_pos s z hm hm1 hz
  have hρ : (0 : ℝ) < s.omega_m * 2.7554e11 := mul_pos hm (by norm_num)
  have hden : (0 : ℝ) < 4 / 3 * Real.pi * s.get_delta_v z * (s.omega_m * 2.7554e11) :=
    mul_pos (mul_pos (mul_pos (by norm_num) Real.pi_pos) hδ) hρ
  exact Real.rpow_pos_of_pos (div_pos hM hden) _

/-- C3: for `M > 0`, `z ≥ 0` and a valid cosmology (`0 < Ω_b < Ω_m < 1`;
positive `M0`, rescale factor and fixed concentration, selector in
`{0, 1, 2}` — all satisfied by the defaults), the virial radius is strictly
positive, and whenever `eps1(z) > -1` and `eps2(z) > -1` the concentration
is returned and is strictly positive. -/
theorem rvirial_concentration_pos (s : HaloProfile) (M z : ℝ)
    (hM : 0 < M) (hz : 0 ≤ z)
    (hb : 0 < s.omega_b) (hbm : s.omega_b < s.omega_m) (hm1 : s.omega_m < 1)
    (hM0 : 0 < s.M0) (hA : 0 < s.HMcode_rescale_A) (hcp : 0 < s.conc_param)
    (hmc : s.imass_conc ≤ 2) :
    0 < s.get_rvirial M z
      ∧ (-1 < s.eps1_0 + s.eps1_1 * z → -1 < s.eps2_0 + s.eps2_1 * z →
          ∃ c_M, s.get_concentration M z = Except.ok c_M ∧ 0 < c_M) := by
  have hm : 0 < s.omega_m := lt_trans hb hbm
  refine ⟨get_rvirial_pos s M z hM hm hm1 hz, ?_⟩
  intro he1 he2
  have hz1 : (0 : ℝ) < 1 + z := by linarith
  by_cases h2 : s.imass_conc = 2
  · refine ⟨s.conc_param, ?_, hcp⟩
    unfold HaloProfile.get_concentration
    simp [h2]
  · have hfb := f_bnd_bounds s M hM hM0 hb hm
    have hd : 0 < s.omega_b / s.omega_m := div_pos hb hm
    have hq0 : 0 < s.get_f_bnd M / (s.omega_b / s.omega_m) := div_pos hfb.1 hd
    have hq1 : s.get_f_bnd M / (s.omega_b / s.omega_m) < 1 := (div_lt_one hd).mpr hfb.2
    have hfact : 0 < 1 + (s.eps1_0 + s.eps1_1 * z)
        + ((s.eps2_0 + s.eps2_1 * z) - (s.eps1_0 + s.eps1_1 * z))
          * s.get_f_bnd M / (s.omega_b / s.omega_m) := by
      rw [mul_div_assoc]
      nlinarith [mul_pos (show (0 : ℝ) < 1 + (s.eps1_0 + s.eps1_1 * z) by linarith)
          (show (0 : ℝ) < 1 - s.get_f_bnd M / (s.omega_b / s.omega_m) by linarith),
        mul_pos (show (0 : ℝ) < 1 + (s.eps2_0 + s.eps2_1 * z) by linarith) hq0]
    have hne1 : ¬ (s.eps1_0 + s.eps1_1 * z ≤ -1) := not_le.mpr he1
    have hne2 : ¬ (s.eps2_0 + s.eps2_1 * z ≤ -1) := not_le.mpr he2
    by_cases h0 : s.imass_conc = 0
    · have hcM : 0 < 7.85 * (M / 2e12) ^ (-0.081 : ℝ) * (1 + z) ^ (-0.71 : ℝ) :=
        mul_pos (mul_pos (by norm_num)
          (Real.rpow_pos_of_pos (div_pos hM (by norm_num)) _))
          (Real.rpow_pos_of_pos hz1 _)
      refine ⟨_, ?_, mul_pos (mul_pos hcM hfact) hA⟩
      unfold HaloProfile.get_concentration
      simp [h2, h0, hne1, hne2]
    · have h1 : s.imass_conc = 1 := by omega
      have hcM : 0 < Real.exp 1.5 * (M / (19.9e13 * 0.704)) ^ (-0.04 : ℝ)
          * ((1 / (1 + z)) / 0.877) ^ (-0.52 : ℝ) :=
        mul_pos (mul_pos (Real.exp_pos _)
          (Real.rpow_pos_of_pos (div_pos hM (by norm_num)) _))
          (Real.rpow_pos_of_pos (div_pos (div_pos one_pos hz1) (by norm_num)) _)
      refine ⟨_, ?_, mul_pos (mul_pos hcM hfact) hA⟩
      unfold HaloProfile.get_concentration
      simp [h2, h0, h1, hne1, hne2]

/-- Witness for C3 at the default model with `M = 1`, `z = 0`. -/
theorem rvirial_concentration_pos_w :
    0 < HaloProfile.default.get_rvirial 1 0
      ∧ ∃ c_M, HaloProfile.default.get_concentration 1 0 = Except.ok c_M ∧ 0 < c_M := by
  have hM0 : 0 < HaloProfile.default.M0 := by
    show (0 : ℝ) < (10 : ℝ) ^ (13.5937 : ℝ)
    exact Real.rpow_pos_of_pos (by norm_num) _
  have h := rvirial_concentration_pos HaloProfile.default 1 0 one_pos le_rfl
    (by norm_num [HaloProfile.default]) (by norm_num [HaloProfile.default])
    (by norm_num [HaloProfile.default]) hM0 (by norm_num [HaloProfile.default])
    (by norm_num [HaloProfile.default]) (by norm_num [HaloProfile.default])
  exact ⟨h.1, h.2 (by norm_num [HaloProfile.default]) (by norm_num [HaloProfile.default])⟩

/-! ## C5 -/

/-- C5 (amended): the claimed temperature formula
`T_virial · shape(x)^(1/(γ_T-1))` holds for `dawn`'s `get_Temp_g` when
`irho ∈ {0, 1}` (for which `shape = ln(1+x)/x`); the isothermal `irho = 2`
branch exists only in the magneticum `Profile.get_Temp_g`, which returns
`T_virial · shape(x)` with no exponent — for `irho = 2` that coincides with
the claimed formula (for any `γ_T`, as `shape = 1`).  `dawn`'s `get_Temp_g`
applies the logarithmic shape for `irho = 2` as well, see the
counterexample. -/
theorem temp_g_shape_split (s : HaloProfile) (p : Profile) (M r r_virial c_M z gT : ℝ)
    (hs : s.irho = 0 ∨ s.irho = 1) (hp : p.irho = 2) :
    s.get_Temp_g M r r_virial c_M z
        = specTempG (s.get_Temp_virial M r_virial z) (r / (r_virial / c_M)) s.gamma_T s.irho
      ∧ p.get_Temp_g M r r_virial c_M z
        = some (specTempG (p.get_Temp_virial M r_virial z) (r / (r_virial / c_M)) gT 2) := by
  constructor
  · have hne : s.irho ≠ 2 := by rcases hs with h | h <;> simp [h]
    unfold HaloProfile.get_Temp_g specTempG specTempShape
    simp [hne]
  · unfold Profile.get_Temp_g specTempG specTempShape
    simp [hp, Real.one_rpow]

/-- Witness for C5 (amended): `dawn` default (`irho = 0`) and a magneticum
`Profile` with `irho = 2`, at concrete arguments. -/
theorem temp_g_shape_split_w :
    HaloProfile.default.get_Temp_g 1 1 1 1 0
        = specTempG (HaloProfile.default.get_Temp_virial 1 1 0) (1 / (1 / 1))
            HaloProfile.default.gamma_T HaloProfile.default.irho
      ∧ ({ Profile.default with irho := 2 } : Profile).get_Temp_g 1 1 1 1 0
        = some (specTempG (({ Profile.default with irho := 2 } : Profile).get_Temp_virial 1 1 0)
            (1 / (1 / 1)) 2 2) :=
  temp_g_shape_split HaloProfile.default { Profile.default with irho := 2 } 1 1 1 1 0 2
    (Or.inl rfl) rfl

/-- Counterexample for C5 as stated: `dawn`'s `get_Temp_g` with `irho = 2`
does not return the isothermal value `T_virial · 1^(1/(γ_T-1))` — it still
applies the logarithmic shape. -/
theorem temp_g_shape_cex :
    ({ HaloProfile.default with irho := 2 } : HaloProfile).get_Temp_g 1 1 1 1 0
      ≠ specTempG (({ HaloProfile.default with irho := 2 } : HaloProfile).get_Temp_virial 1 1 0)
          (1 / (1 / 1)) ({ HaloProfile.default with irho := 2 } : HaloProfile).gamma_T 2 := by
  have hTv : 0 < ({ HaloProfile.default with irho := 2 } : HaloProfile).get_Temp_virial 1 1 0 := by
    unfold HaloProfile.get_Temp_virial
    norm_num [HaloProfile.default, const_G, const_m_p, const_k_B]
  have hL : ({ HaloProfile.default with irho := 2 } : HaloProfile).get_Temp_g 1 1 1 1 0
      = ({ HaloProfile.default with irho := 2 } : HaloProfile).get_Temp_virial 1 1 0
        * Real.log 2 := by
    unfold HaloProfile.get_Temp_g
    rw [show ({ HaloProfile.default with irho := 2 } : HaloProfile).gamma_T = (2 : ℝ) from rfl]
    norm_num [Real.rpow_one]
  have hR : specTempG (({ HaloProfile.default with irho := 2 } : HaloProfile).get_Temp_virial 1 1 0)
      (1 / (1 / 1)) ({ HaloProfile.default with irho := 2 } : HaloProfile).gamma_T 2
      = ({ HaloProfile.default with irho := 2 } : HaloProfile).get_Temp_virial 1 1 0 := by
    unfold specTempG specTempShape
    norm_num [Real.one_rpow]
  rw [hL, hR]
  intro hcontra
  have hlog : Real.log 2 = 1 :=
    mul_left_cancel₀ (ne_of_gt hTv) (hcontra.trans (mul_one _).symm)
  have hlt := Real.log_two_lt_d9
  rw [hlog] at hlt
  norm_num at hlt

/-! ## C1 -/

/-- Evaluating an everywhere-defined integrand over a grid yields the mapped
grid. -/
lemma seqOption_some (g : ℝ → ℝ) (l : List ℝ) :
    seqOption (fun r => some (g r)) l = some (l.map g) := by
  induction l with
  | nil => rfl
  | cons a l ih => simp [seqOption, ih]

/-- An everywhere-undefined integrand over a nonempty grid yields no value. -/
lemma seqOption_none_all (f : ℝ → Option ℝ) (l : List ℝ)
    (hf : ∀ r, f r = none) (hl : l ≠ []) : seqOption f l = none := by
  cases l with
  | nil => exact absurd rfl hl
  | cons a l => simp [seqOption, hf a]

/-- Indexing a mapped range list. -/
lemma range_map_getD (g : ℕ → ℝ) (n i : ℕ) (hi : i < n) :
    ((List.range n).map g).getD i 0 = g i := by
  have hlen : i < ((List.range n).map g).length := by simpa using hi
  rw [List.getD_eq_getElem _ _ hlen, List.getElem_map, List.getElem_range]

/-- Indexing a function mapped over a `linspace` grid. -/
lemma linspace_map_getD (F : ℝ → ℝ) (a b : ℝ) (n i : ℕ) (hi : i < n) :
    ((linspace a b n).map F).getD i 0 = F (a + i * ((b - a) / ((n : ℝ) - 1))) := by
  unfold linspace
  rw [List.map_map]
  exact range_map_getD _ n i hi

/-- Every Simpson weight of the 2000-sample rule is strictly positive (the
`-1/12` Cartwright coefficient is dominated by the `4/3` composite weight on
the same sample). -/
lemma simpW_pos (i : ℕ) (hi : i < 2000) : 0 < simpW 2000 i := by
  unfold simpW
  split_ifs <;> first | (exfalso; omega) | norm_num

/-- A Simpson sum over 2000 positive samples with positive spacing is
positive. -/
lemma simpson_pos (h : ℝ) (ys : List ℝ) (hlen : ys.length = 2000)
    (hh : 0 < h) (hy : ∀ i, i < 2000 → 0 < ys.getD i 0) : 0 < simpson h ys := by
  unfold simpson
  rw [hlen]
  refine Finset.sum_pos (fun i hi => ?_) ⟨0, Finset.mem_range.mpr (by norm_num)⟩
  have hi' : i < 2000 := Finset.mem_range.mp hi
  exact mul_pos (mul_pos hh (simpW_pos i hi')) (hy i hi')

/-- The Simpson sum is homogeneous in the integrand. -/
lemma simpson_map_mul (h k : ℝ) (F : ℝ → ℝ) (l : List ℝ) :
    simpson h (l.map (fun r => k * F r)) = k * simpson h (l.map F) := by
  unfold simpson
  rw [List.length_map, List.length_map, Finset.mul_sum]
  refine Finset.sum_congr rfl (fun i hi => ?_)
  have hi' : i < l.length := Finset.mem_range.mp hi
  have h1 : (l.map (fun r => k * F r)).getD i 0 = k * F (l.getD i 0) := by
    have hm : i < (l.map (fun r => k * F r)).length := by simpa using hi'
    rw [List.getD_eq_getElem _ _ hm, List.getElem_map, List.getD_eq_getElem _ _ hi']
  have h2 : (l.map F).getD i 0 = F (l.getD i 0) := by
    have hm : i < (l.map F).length := by simpa using hi'
    rw [List.getD_eq_getElem _ _ hm, List.getElem_map, List.getD_eq_getElem _ _ hi']
  rw [h1, h2]; ring

/-- `get_norm` of an everywhere-defined profile is the Simpson sum of
`4πr²` times its pointwise values over the 2000-point grid. -/
lemma get_norm_eval (G : ℝ → ℝ) (M r_virial c_M : ℝ)
    (profile : ℝ → ℝ → ℝ → ℝ → Option ℝ)
    (hprof : ∀ r, profile M r r_virial c_M = some (G r)) :
    HaloProfile.get_norm profile M r_virial c_M
      = some (simpson ((r_virial - 1e-6) / 1999)
          ((linspace 1e-6 r_virial 2000).map (fun r => 4 * Real.pi * r ^ 2 * G r))) := by
  unfold HaloProfile.get_norm
  have hfun : (fun r => (profile M r r_virial c_M).map (fun ρ => 4 * Real.pi * r ^ 2 * ρ))
      = fun r => some (4 * Real.pi * r ^ 2 * G r) := by
    funext r; rw [hprof r]; rfl
  rw [hfun, seqOption_some]
  rfl

/-- The entries of the normalization integrand are positive when the shape
is positive on positive radii and the grid lies in positive radii. -/
lemma norm_entry_pos (G : ℝ → ℝ) (r_virial : ℝ) (hrv : 1e-6 < r_virial)
    (hG : ∀ r, 0 < r → 0 < G r) :
    ∀ i, i < 2000 →
      0 < ((linspace 1e-6 r_virial 2000).map (fun r => 4 * Real.pi * r ^ 2 * G r)).getD i 0 := by
  intro i hi
  rw [linspace_map_getD _ _ _ _ _ hi]
  have hstep : (0 : ℝ) < (r_virial - 1e-6) / (((2000 : ℕ) : ℝ) - 1) := by
    apply div_pos (by linarith)
    push_cast
    norm_num
  have hr : (0 : ℝ) < 1e-6 + i * ((r_virial - 1e-6) / (((2000 : ℕ) : ℝ) - 1)) := by
    have hnn : (0 : ℝ) ≤ (i : ℝ) * ((r_virial - 1e-6) / (((2000 : ℕ) : ℝ) - 1)) :=
      mul_nonneg (Nat.cast_nonneg i) (le_of_lt hstep)
    linarith
  exact mul_pos (mul_pos (mul_pos (by norm_num) Real.pi_pos) (pow_pos hr 2)) (hG _ hr)

/-- Core of C1: if the shape wrapper is everywhere defined with positive
values, the Simpson approximation of `∫ 4πr²·ρ_bnd` over `get_norm`'s grid
is exactly `f_bnd(M)·M`. -/
lemma mass_conservation_core (s : HaloProfile) (M r_virial c_M z : ℝ) (F : ℝ → ℝ)
    (hw : ∀ r, s.rho_bnd_wrapper M r r_virial c_M = some (F r))
    (hF : ∀ r, 0 < r → 0 < F r)
    (hrv : 1e-6 < r_virial) :
    ∃ I, HaloProfile.get_norm (fun M' r' rv' c' => s.get_rho_bnd M' r' rv' c' z)
        M r_virial c_M = some I
      ∧ I = s.get_f_bnd M * M := by
  have hnorm_eval : HaloProfile.get_norm s.rho_bnd_wrapper M r_virial c_M
      = some (simpson ((r_virial - 1e-6) / 1999)
          ((linspace 1e-6 r_virial 2000).map (fun r => 4 * Real.pi * r ^ 2 * F r))) :=
    get_norm_eval F M r_virial c_M _ hw
  have hnpos : 0 < simpson ((r_virial - 1e-6) / 1999)
      ((linspace 1e-6 r_virial 2000).map (fun r => 4 * Real.pi * r ^ 2 * F r)) := by
    apply simpson_pos _ _ (by simp [linspace]) (div_pos (by linarith) (by norm_num))
    exact norm_entry_pos F r_virial hrv hF
  have hrho : ∀ r, s.get_rho_bnd M r r_virial c_M z
      = some (F r * s.get_f_bnd M * M
          / simpson ((r_virial - 1e-6) / 1999)
            ((linspace 1e-6 r_virial 2000).map (fun r => 4 * Real.pi * r ^ 2 * F r))) := by
    intro r
    unfold HaloProfile.get_rho_bnd
    rw [hw r, hnorm_eval]
  have hclaim := get_norm_eval
    (fun r => F r * s.get_f_bnd M * M
      / simpson ((r_virial - 1e-6) / 1999)
        ((linspace 1e-6 r_virial 2000).map (fun r => 4 * Real.pi * r ^ 2 * F r)))
    M r_virial c_M
    (fun M' r' rv' c' => s.get_rho_bnd M' r' rv' c' z) (fun r => hrho r)
  refine ⟨_, hclaim, ?_⟩
  have hfun : (fun r => 4 * Real.pi * r ^ 2
      * (F r * s.get_f_bnd M * M
        / simpson ((r_virial - 1e-6) / 1999)
          ((linspace 1e-6 r_virial 2000).map (fun r => 4 * Real.pi * r ^ 2 * F r))))
      = fun r => (s.get_f_bnd M * M
        / simpson ((r_virial - 1e-6) / 1999)
          ((linspace 1e-6 r_virial 2000).map (fun r => 4 * Real.pi * r ^ 2 * F r)))
        * (4 * Real.pi * r ^ 2 * F r) := by
    funext r; ring
  rw [hfun, simpson_map_mul ((r_virial - 1e-6) / 1999) _ (fun r => 4 * Real.pi * r ^ 2 * F r)
    (linspace 1e-6 r_virial 2000)]
  exact div_mul_cancel₀ _ (ne_of_gt hnpos)

/-- C1 (amended): for `irho ∈ {0, 1}` (the implemented shape variants), with
`M, M0, Ω_b, Ω_m, c_M > 0` and `r_virial` above the grid's inner endpoint
`1e-6`, the composite-Simpson approximation (over `get_norm`'s dense linear
grid) of `∫ 4πr²·ρ_bnd(r) dr` from `≈0` to `r_virial` equals `f_bnd(M)·M`
— in particular it is within relative error `1e-3` of it.  For `irho = 2`
the density has no value at all (the shape's body is commented out), see the
counterexample. -/
theorem rho_bnd_mass_conservation (s : HaloProfile) (M r_virial c_M z : ℝ)
    (hirho : s.irho = 0 ∨ s.irho = 1)
    (hM : 0 < M) (hz : 0 ≤ z) (hM0 : 0 < s.M0) (hb : 0 < s.omega_b) (hm : 0 < s.omega_m)
    (hrv : 1e-6 < r_virial) (hc : 0 < c_M) :
    ∃ I, HaloProfile.get_norm (fun M' r' rv' c' => s.get_rho_bnd M' r' rv' c' z)
        M r_virial c_M = some I
      ∧ |I - s.get_f_bnd M * M| ≤ 1e-3 * (s.get_f_bnd M * M) := by
  have hC : 0 < s.get_f_bnd M * M := mul_pos (f_bnd_bounds s M hM hM0 hb hm).1 hM
  have hrv0 : (0 : ℝ) < r_virial := lt_trans (by norm_num) hrv
  have hshape : ∀ (e r : ℝ), 0 < r →
      0 < (Real.log (1 + r / (r_virial / c_M)) / (r / (r_virial / c_M))) ^ e := by
    intro e r hr
    have hrs : 0 < r_virial / c_M := div_pos hrv0 hc
    have hx : 0 < r / (r_virial / c_M) := div_pos hr hrs
    exact Real.rpow_pos_of_pos (div_pos (Real.log_pos (by linarith)) hx) e
  have hfinish : ∀ I, I = s.get_f_bnd M * M →
      |I - s.get_f_bnd M * M| ≤ 1e-3 * (s.get_f_bnd M * M) := by
    intro I hI
    rw [hI, sub_self, abs_zero]
    positivity
  rcases hirho with h0 | h1
  · obtain ⟨I, hI, hIC⟩ := mass_conservation_core s M r_virial c_M z
      (fun r => (Real.log (1 + r / (r_virial / c_M)) / (r / (r_virial / c_M)))
        ^ (1 / (s.gamma - 1)))
      (fun r => by
        unfold HaloProfile.rho_bnd_wrapper HaloProfile.rho_bnd_shape
        simp [h0])
      (fun r hr => hshape _ r hr) hrv
    exact ⟨I, hI, hfinish I hIC⟩
  · obtain ⟨I, hI, hIC⟩ := mass_conservation_core s M r_virial c_M z
      (fun r => (Real.log (1 + r / (r_virial / c_M)) / (r / (r_virial / c_M)))
        ^ (1 / (s.gamma * M ^ s.a - 1)))
      (fun r => by
        unfold HaloProfile.rho_bnd_wrapper HaloProfile.rho_bnd_shape
        simp [h1])
      (fun r hr => hshape _ r hr) hrv
    exact ⟨I, hI, hfinish I hIC⟩

/-- Witness for C1 (amended) at the default model (`irho = 0`) with
`M = r_virial = c_M = 1`, `z = 0`. -/
theorem rho_bnd_mass_conservation_w :
    ∃ I, HaloProfile.get_norm
        (fun M' r' rv' c' => HaloProfile.default.get_rho_bnd M' r' rv' c' 0) 1 1 1 = some I
      ∧ |I - HaloProfile.default.get_f_bnd 1 * 1|
          ≤ 1e-3 * (HaloProfile.default.get_f_bnd 1 * 1) :=
  rho_bnd_mass_conservation HaloProfile.default 1 1 1 0 (Or.inl rfl) one_pos le_rfl
    (by
      show (0 : ℝ) < (10 : ℝ) ^ (13.5937 : ℝ)
      exact Real.rpow_pos_of_pos (by norm_num) _)
    (by norm_num [HaloProfile.default]) (by norm_num [HaloProfile.default])
    (by norm_num) one_pos

/-- Counterexample for C1 as stated: with the `irho = 2` variant selected,
`get_rho_bnd` produces no density at all (the e-GNFW body of
`_get_rho_bnd` is commented out), so the normalization identity fails — the
Simpson approximation of `∫ 4πr²·ρ_bnd` has no value. -/
theorem rho_bnd_mass_conservation_cex :
    ¬ ∃ I, HaloProfile.get_norm
        (fun M' r' rv' c' =>
          ({ HaloProfile.default with irho := 2 } : HaloProfile).get_rho_bnd M' r' rv' c' 0)
        1 1 1 = some I
      ∧ |I - ({ HaloProfile.default with irho := 2 } : HaloProfile).get_f_bnd 1 * 1|
          ≤ 1e-3 * (({ HaloProfile.default with irho := 2 } : HaloProfile).get_f_bnd 1 * 1) := by
  have hw : ∀ r : ℝ,
      ({ HaloProfile.default with irho := 2 } : HaloProfile).rho_bnd_wrapper 1 r 1 1 = none := by
    intro r
    rfl
  have hrho : ∀ r : ℝ,
      ({ HaloProfile.default with irho := 2 } : HaloProfile).get_rho_bnd 1 r 1 1 0 = none := by
    intro r
    unfold HaloProfile.get_rho_bnd
    rw [hw r]
  have hnone : HaloProfile.get_norm
      (fun M' r' rv' c' =>
        ({ HaloProfile.default with irho := 2 } : HaloProfile).get_rho_bnd M' r' rv' c' 0)
      1 1 1 = none := by
    unfold HaloProfile.get_norm
    rw [seqOption_none_all _ _ (fun r => by simp only [hrho r, Option.map_none'])
      (by simp [linspace])]
    rfl
  rintro ⟨I, hI, _⟩
  rw [hnone] at hI
  exact Option.noConfusion hI

end
